import Mathlib

/-!
Verification development for the JB4 log plotter (`jb4_log_plotter.py`).

The script parses a JB4 CSV log (free-text preamble, then a header line
beginning with "timestamp", then delimited rows), resolves logical channel
names to the physical column names present in the file, and plots channels
with an interactive cursor.

This file gives a shallow embedding of the script's parsing, column
resolution, nearest-sample lookup and cursor-label formatting, and proves
properties about them.  Numeric cell values are modelled exactly as
rationals via a scaled-integer decimal parser (the Python code works on
IEEE doubles; all inputs considered here are short decimal strings whose
comparisons coincide with exact rational comparisons, and non-finite
spellings such as "inf"/"nan" are outside the rational model).
-/

/-- Characters of a string (the embedding works on character lists so that
everything reduces in the kernel). -/
def chars (s : String) : List Char := s.data

/-- Python `str.lstrip()` on characters: drop leading whitespace. -/
def lstripChars (cs : List Char) : List Char := cs.dropWhile Char.isWhitespace

/-- Python `str.strip()` on characters: drop leading and trailing whitespace. -/
def stripChars (cs : List Char) : List Char :=
  ((cs.dropWhile Char.isWhitespace).reverse.dropWhile Char.isWhitespace).reverse

/-- Helper for collapsing whitespace runs: the flag records whether the
previous character was whitespace (so a run produces a single space),
modelling the `str.replace(r"\s+", " ", regex=True)` column cleanup. -/
def collapseAux : Bool → List Char → List Char
  | _, [] => []
  | prevWs, c :: rest =>
    if c.isWhitespace then
      if prevWs then collapseAux true rest
      else ' ' :: collapseAux true rest
    else c :: collapseAux false rest

/-- Column-name cleanup of `read_jb4_csv`:
`df.columns.astype(str).str.strip().str.replace(r"\s+", " ", regex=True)`. -/
def cleanCol (s : String) : String := String.mk (collapseAux false (stripChars (chars s)))

/-- Split a character list on commas (the comma-delimited parse done by
`pd.read_csv`; JB4 logs use no quoting). -/
def splitCommaChars : List Char → List (List Char)
  | [] => [[]]
  | c :: rest =>
    if c = ',' then [] :: splitCommaChars rest
    else
      match splitCommaChars rest with
      | [] => [[c]]
      | h :: t => (c :: h) :: t

/-- Split a line into its comma-separated fields. -/
def splitComma (s : String) : List String := (splitCommaChars (chars s)).map String.mk

/-- Numeric value of a digit run (most significant first). -/
def digitsVal (cs : List Char) : Nat := cs.foldl (fun acc c => acc * 10 + (c.toNat - 48)) 0

/-- Decimal parser used to model `pd.to_numeric(..., errors="coerce")` /
Python `float()` on a cell string: optional surrounding whitespace, optional
sign, digits with an optional decimal point, optional exponent.  The result
`(n, k)` denotes the exact value `n / 10^k`.  Returns `none` exactly when
the coercion fails (the cell would become NaN and be dropped). -/
def parseDec (s : String) : Option (Int × Nat) :=
  let cs := stripChars (chars s)
  let sgnRest : Int × List Char :=
    match cs with
    | '-' :: rest => (-1, rest)
    | '+' :: rest => (1, rest)
    | _ => (1, cs)
  let sgn := sgnRest.1
  let intPart := sgnRest.2.takeWhile Char.isDigit
  let cs1 := sgnRest.2.dropWhile Char.isDigit
  let fracRest : List Char × List Char :=
    match cs1 with
    | '.' :: rest => (rest.takeWhile Char.isDigit, rest.dropWhile Char.isDigit)
    | _ => ([], cs1)
  let fracPart := fracRest.1
  if intPart.isEmpty && fracPart.isEmpty then none
  else
    let mant : Int := sgn * (digitsVal intPart * 10 ^ fracPart.length + digitsVal fracPart)
    match fracRest.2 with
    | [] => some (mant, fracPart.length)
    | e :: rest =>
      if e = 'e' || e = 'E' then
        let eRest : Bool × List Char :=
          match rest with
          | '-' :: r => (true, r)
          | '+' :: r => (false, r)
          | _ => (false, rest)
        let eDigits := eRest.2.takeWhile Char.isDigit
        if eDigits.isEmpty || !(eRest.2.dropWhile Char.isDigit).isEmpty then none
        else if eRest.1 then some (mant, fracPart.length + digitsVal eDigits)
        else some (mant * 10 ^ digitsVal eDigits, fracPart.length)
      else none

/-- The rational value of a parsed cell, when numeric coercion succeeds. -/
def toNumericQ (s : String) : Option ℚ :=
  (parseDec s).map (fun p => (p.1 : ℚ) / 10 ^ p.2)

/-- The single-quote character, written via its code point (Python `repr`
of a string uses single quotes). -/
def squote : Char := Char.ofNat 39

/-- Python `repr` of a string literal as it appears inside a printed list
(none of the column names involved contains a quote or escape). -/
def pyQuote (s : String) : String := String.mk (squote :: chars s ++ [squote])

/-- Helper for `pyListRepr`: comma-separated quoted items. -/
def pyListReprAux : List String → String
  | [] => ""
  | [a] => pyQuote a
  | a :: b :: rest => pyQuote a ++ ", " ++ pyListReprAux (b :: rest)

/-- Python `str` of a list of strings, e.g. `['RPM', 'Boost']`, as
interpolated by the f-string error messages. -/
def pyListRepr (l : List String) : String := "[" ++ pyListReprAux l ++ "]"

/-- The user-facing failure kinds of the script.  The Python code raises
`ValueError` at every hand-written failure site; the spec classifies them as
`ParseError` (header marker not found) and `SchemaError` (missing columns).
`keyError` models the pandas `KeyError` raised by `df[col]` on a missing
column, `emptyDataError` the "No data rows" check in `main`, and `csvError`
a pandas parser failure (header index beyond the data). -/
inductive JErr where
  | parseError (msg : String)
  | schemaError (msg : String)
  | keyError (key : String)
  | emptyDataError (msg : String)
  | csvError (msg : String)
deriving DecidableEq, Repr

/-- The parsed log table: cleaned column names and the surviving data rows
(each row the raw comma-split fields of one line). -/
structure Table where
  cols : List String
  rows : List (List String)
deriving DecidableEq, Repr

/-- The header-marker test of `find_header_line`:
`line.lstrip().startswith("timestamp")`. -/
def starts_with_marker (line : String) : Bool :=
  (chars "timestamp").isPrefixOf (lstripChars (chars line))

/-- `find_header_line`: 0-based index of the first line whose
whitespace-trimmed content begins with "timestamp", if any. -/
def find_header_line (lines : List String) : Option Nat :=
  lines.findIdx? starts_with_marker

/-- The non-blank lines of the file.  `pd.read_csv` (with its default
`skip_blank_lines=True`) skips empty lines, and its documented behaviour is
that the `header=k` index counts these skipped lines out: "this parameter
ignores commented lines and empty lines ..., so header=0 denotes the first
line of data rather than the first line of the file". -/
def nonblank_lines (lines : List String) : List String :=
  lines.filter (fun l => l ≠ "")

/-- The column names pandas produces for `read_csv(header=k)`, after the
script's whitespace cleanup: the k-th non-blank line, comma-split. -/
def headerCols (lines : List String) (k : Nat) : List String :=
  (splitComma ((nonblank_lines lines).getD k "")).map cleanCol

/-- The raw data rows pandas produces for `read_csv(header=k)`: every
non-blank line after the header line, comma-split. -/
def dataRows (lines : List String) (k : Nat) : List (List String) :=
  ((nonblank_lines lines).drop (k + 1)).map splitComma

/-- Cell access in a row: pandas fills missing trailing fields with NaN,
modelled by the empty string (which fails numeric coercion). -/
def cellStr (r : List String) (i : Nat) : String := r.getD i ""

/-- `read_jb4_csv`: find the header marker line, read the table with pandas
using that index as the header row, clean the column names, require a
"timestamp" column, coerce it to numeric and drop the rows where the
coercion fails.  (Error messages omit the file path interpolated by the
Python f-strings.) -/
def read_jb4_csv (lines : List String) : Except JErr Table :=
  match find_header_line lines with
  | none =>
    .error (.parseError "Could not find a header line starting with \"timestamp\"")
  | some k =>
    if (nonblank_lines lines).length ≤ k then
      .error (.csvError "header row index beyond the end of the data")
    else if (headerCols lines k).contains "timestamp" then
      .ok ⟨headerCols lines k, (dataRows lines k).filter
        (fun r => (toNumericQ (cellStr r ((headerCols lines k).indexOf "timestamp"))).isSome)⟩
    else
      .error (.schemaError ("Expected a \"timestamp\" column, found: " ++
        pyListRepr (headerCols lines k)))

/-- Index of the time column in a parsed table. -/
def timeIdx (t : Table) : Nat := t.cols.indexOf "timestamp"

/-- The coerced time value of a row of a parsed table (0 as a dummy for the
rows that cannot occur in a parsed table). -/
def rowTimes (t : Table) : List ℚ :=
  t.rows.map (fun r => (toNumericQ (cellStr r (timeIdx t))).getD 0)

/-- Lexicographic order on character lists by code point, as Python compares
strings. -/
def lexLeb : List Char → List Char → Bool
  | [], _ => true
  | _ :: _, [] => false
  | a :: as, b :: bs =>
    if a.toNat < b.toNat then true
    else if b.toNat < a.toNat then false
    else lexLeb as bs

/-- Python string comparison `a <= b`. -/
def strLeb (a b : String) : Bool := lexLeb (chars a) (chars b)

/-- Insert a string into a sorted list (for the model of Python `sorted`). -/
def insertSorted (s : String) : List String → List String
  | [] => [s]
  | a :: rest => if strLeb s a then s :: a :: rest else a :: insertSorted s rest

/-- Insertion sort of strings, modelling Python `sorted` on strings. -/
def sortStrings : List String → List String
  | [] => []
  | a :: rest => insertSorted a (sortStrings rest)

/-- Duplicate removal, modelling the `set(...)` constructor (only the
resulting membership matters, since the set is immediately sorted). -/
def dedupFirst : List String → List String
  | [] => []
  | a :: rest => a :: ((dedupFirst rest).filter (fun b => !(b == a)))

/-- Python `sorted(set(l))` for a list of strings. -/
def sortedSet (l : List String) : List String := sortStrings (dedupFirst l)

/-- The fixed part of the column mapping of `resolve_columns`: columns the
script expects to exist under their own names, in dict insertion order. -/
def baseMapping : List (String × String) :=
  [("RPM", "RPM"), ("Pedal", "Pedal"), ("Throttle", "Throttle"),
   ("AFR", "AFR"), ("IAT", "IAT")]

/-- Message of the failure when neither Boost alias is present. -/
def boost_err_msg : String := "Could not find \"Boost\" or \"ECU Boost\" column."

/-- Message of the failure when neither Speed alias is present. -/
def speed_err_msg : String := "Could not find \"Speed\" or \"GPS Speed\" column."

/-- Message of the final missing-columns validation of `resolve_columns`:
`f"Missing required columns: {missing}\nAvailable: {sorted(available)}"`. -/
def missing_err_msg (missing available : List String) : String :=
  "Missing required columns: " ++ pyListRepr missing ++
    "\nAvailable: " ++ pyListRepr (sortedSet available)

/-- The Boost alias choice of `resolve_columns`: "Boost" if present, else
"ECU Boost" if present. -/
def boostAlias (available : List String) : Option String :=
  if available.contains "Boost" then some "Boost"
  else if available.contains "ECU Boost" then some "ECU Boost"
  else none

/-- The Speed alias choice of `resolve_columns`: "Speed" if present, else
"GPS Speed" if present. -/
def speedAlias (available : List String) : Option String :=
  if available.contains "Speed" then some "Speed"
  else if available.contains "GPS Speed" then some "GPS Speed"
  else none

/-- The full mapping dict of `resolve_columns` once the Boost and Speed
aliases are chosen (dict insertion order: the base entries, then Boost,
then Speed). -/
def withAliases (bc sc : String) : List (String × String) :=
  baseMapping ++ [("Boost", bc), ("Speed", sc)]

/-- The `missing` list of `resolve_columns`: friendly names whose mapped
physical column is not among the available columns. -/
def missingOf (available : List String) (bc sc : String) : List String :=
  ((withAliases bc sc).filter (fun p => !(available.contains p.2))).map Prod.fst

/-- `resolve_columns`: map each friendly channel name to the physical
column present in the file.  Tries the Boost aliases, then the Speed
aliases, then validates that every mapped physical column is available,
reporting the missing friendly names and the sorted available set.
The argument is `df.columns` as a list; Python's `available = set(...)`
only ever queries membership, so a list with `contains` is faithful. -/
def resolve_columns (available : List String) : Except JErr (List (String × String)) :=
  match boostAlias available with
  | none => .error (.schemaError boost_err_msg)
  | some bc =>
    match speedAlias available with
    | none => .error (.schemaError speed_err_msg)
    | some sc =>
      if (missingOf available bc sc).isEmpty then .ok (withAliases bc sc)
      else .error (.schemaError (missing_err_msg (missingOf available bc sc) available))

/-- Dictionary lookup in the resolved mapping (`colmap.get(friendly, ...)`). -/
def lookupMap (m : List (String × String)) (key : String) : Option String :=
  (m.find? (fun p => p.1 == key)).map Prod.snd

/-- The physical column `main` reads for a friendly name:
`colmap.get(friendly_name, friendly_name)`. -/
def plotCol (m : List (String × String)) (friendly : String) : String :=
  (lookupMap m friendly).getD friendly

/-- The sequence of `df[...]` column accesses performed by `main` after
column resolution, in program order: the per-subplot channels in `PLOTS`
order (RPM, Boost, Pedal, AFR, IAT, Speed), with the unconditional
`df["Boost2"]`, `df["Target"]` accesses inside the Boost subplot branch and
`df["Throttle"]` inside the Pedal subplot branch. -/
def main_accesses (m : List (String × String)) : List String :=
  [plotCol m "RPM",
   plotCol m "Boost", "Boost2", "Target",
   plotCol m "Pedal", "Throttle",
   plotCol m "AFR",
   plotCol m "IAT",
   plotCol m "Speed"]

/-- First accessed column that is absent from the table (pandas raises
`KeyError` at the first such `df[col]`). -/
def firstMissingCol (cols accesses : List String) : Option String :=
  accesses.find? (fun c => !(cols.contains c))

/-- The part of `main` after `read_jb4_csv` returns, up to the end of the
plotting loop, as far as failure behaviour is concerned: resolve the
columns, read `df["timestamp"]`, fail on an empty table, then perform the
per-channel column accesses.  Rendering calls cannot fail on missing
columns and are not modelled. -/
def main_after_read (tbl : Table) : Except JErr Unit :=
  match resolve_columns tbl.cols with
  | .error e => .error e
  | .ok m =>
    if !(tbl.cols.contains "timestamp") then .error (.keyError "timestamp")
    else if tbl.rows.isEmpty then
      .error (.emptyDataError "No data rows found after parsing CSV.")
    else
      match firstMissingCol tbl.cols (main_accesses m) with
      | some c => .error (.keyError c)
      | none => .ok ()

/-- Whether a pipeline outcome is the SchemaError failure kind. -/
def isSchemaError : Except JErr Unit → Bool
  | .error (.schemaError _) => true
  | _ => false

/-- `np.searchsorted(x_arr, x)` (left insertion point) on an ascending
array: the number of leading elements strictly below `x`. -/
def searchsorted : List ℚ → ℚ → Nat
  | [], _ => 0
  | v :: rest, x => if v < x then searchsorted rest x + 1 else 0

/-- `nearest_index`: index of the nearest sample.  `i <= 0` and
`i >= len(x_arr)` clamp to the ends, otherwise whichever of `i-1`, `i` is
closer (ties to `i-1`, since the comparison is strict). -/
def nearest_index (x : ℚ) (x_arr : List ℚ) : Nat :=
  let i := searchsorted x_arr x
  if i = 0 then 0
  else if x_arr.length ≤ i then x_arr.length - 1
  else if x_arr.getD i 0 - x < x - x_arr.getD (i - 1) 0 then i else i - 1

/-- Python `round()` on an exact rational: round half to even. -/
def pyRound (q : ℚ) : ℤ :=
  let f := ⌊q⌋
  let r := q - f
  if r < 1 / 2 then f
  else if 1 / 2 < r then f + 1
  else if f % 2 = 0 then f else f + 1

/-- Decimal digits of a natural number (fuel-based so that it reduces). -/
def natDigitsAux : Nat → Nat → List Char
  | 0, _ => []
  | _ + 1, 0 => []
  | fuel + 1, n => natDigitsAux fuel (n / 10) ++ [Char.ofNat (48 + n % 10)]

/-- Python `str` of a natural number. -/
def natStr (n : Nat) : String := if n = 0 then "0" else String.mk (natDigitsAux (n + 1) n)

/-- Python `str` of an integer. -/
def intStr (i : Int) : String := if i < 0 then "-" ++ natStr i.natAbs else natStr i.natAbs

/-- Two-digit zero-padded rendering of `n < 100` (the cents part of a
`.2f` format). -/
def pad2 (n : Nat) : String := if n < 10 then "0" ++ natStr n else natStr n

/-- Python `f"{q:.2f}"` on an exact rational: round to two decimals (half
to even) and render with exactly two digits after the point.  A negative
value rounding to zero keeps its sign, as CPython prints `-0.00`. -/
def fmt2 (q : ℚ) : String :=
  let n := pyRound (q * 100)
  (if q < 0 then "-" else "") ++ natStr (n.natAbs / 100) ++ "." ++ pad2 (n.natAbs % 100)

/-- The value part of the cursor readout built in `on_move`: an integer
rendering when the value is within `1e-9` of an integer, otherwise fixed to
two decimals.  (`np.isfinite` is identically true on the rational model.) -/
def cursor_value_text (v : ℚ) : String :=
  if |v - (pyRound v : ℚ)| < 1 / 1000000000 then intStr (pyRound v) else fmt2 v

/-- The full cursor label `f"{name}: {...}"` of `on_move`. -/
def cursor_label (name : String) (v : ℚ) : String := name ++ ": " ++ cursor_value_text v

/-- Boolean substring test on character lists (structural, so it reduces in
the kernel). -/
def infixB (needle : List Char) : List Char → Bool
  | [] => needle.isEmpty
  | b :: bs => needle.isPrefixOf (b :: bs) || infixB needle bs

/-- Whether `needle` occurs as a contiguous substring of `hay`; used to
state that an error message "enumerates" a name. -/
def containsSub (needle hay : String) : Bool := infixB (chars needle) (chars hay)

deriving instance DecidableEq for Except

/-- Structure of a successful `read_jb4_csv`: the header index is the first
marker line, the columns are the cleaned header fields, and the rows are
exactly the data rows whose time cell coerces. -/
theorem read_ok_spec (lines : List String) (tbl : Table)
    (h : read_jb4_csv lines = .ok tbl) :
    ∃ k, find_header_line lines = some k ∧
      tbl.cols = headerCols lines k ∧
      tbl.rows = (dataRows lines k).filter
        (fun r => (toNumericQ (cellStr r (timeIdx tbl))).isSome) := by
  cases hf : find_header_line lines with
  | none =>
    simp only [read_jb4_csv, hf] at h
    exact Except.noConfusion h
  | some k =>
    simp only [read_jb4_csv, hf] at h
    split_ifs at h with h1 h2
    all_goals injection h with h'
    subst h'
    exact ⟨k, rfl, rfl, rfl⟩


/-- A parsed file whose data rows carry descending time values: the parser
keeps them in file order, so the resulting table is not time-sorted. -/
def c1_lines : List String := ["timestamp,RPM", "2.0,10", "1.0,20"]

/-- The table `read_jb4_csv` produces for `c1_lines`. -/
def c1_table : Table := ⟨["timestamp", "RPM"], [["2.0", "10"], ["1.0", "20"]]⟩

/-- C1, counterexample: a successfully parsed file whose resulting rows are
not sorted ascending by the time column — `read_jb4_csv` never sorts. -/
theorem C1_counterexample :
    read_jb4_csv c1_lines = .ok c1_table ∧
    ¬ List.Chain' (· ≤ ·) (rowTimes c1_table) := by
  refine ⟨by decide, ?_⟩
  have h2 : parseDec "2.0" = some (20, 1) := by decide
  have h1 : parseDec "1.0" = some (10, 1) := by decide
  have ht : rowTimes c1_table = [2, 1] := by
    simp [rowTimes, c1_table, timeIdx, cellStr, toNumericQ, h1, h2]
    norm_num
  rw [ht]
  norm_num [List.chain'_cons, List.chain'_singleton]

/-- C1 (amended): after a successful parse every surviving row's time cell
coerces to a number, and the surviving rows are a sublist of the data rows
in file order (the parser drops rows but never reorders, so the table is
time-sorted exactly when the kept input rows already were). -/
theorem C1_drop_and_input_order (lines : List String) (tbl : Table)
    (h : read_jb4_csv lines = .ok tbl) :
    (∀ r ∈ tbl.rows, (toNumericQ (cellStr r (timeIdx tbl))).isSome = true) ∧
    ∃ k, find_header_line lines = some k ∧ tbl.rows.Sublist (dataRows lines k) := by
  obtain ⟨k, hk, _, hr⟩ := read_ok_spec lines tbl h
  refine ⟨?_, k, hk, ?_⟩
  · intro r hrm
    rw [hr] at hrm
    exact (List.mem_filter.1 hrm).2
  · rw [hr]
    exact List.filter_sublist _

/-- Input for the C1 witness. -/
def c1w_lines : List String := ["timestamp,a", "1.0,x", "2.0,y"]

/-- Table parsed from `c1w_lines`. -/
def c1w_table : Table := ⟨["timestamp", "a"], [["1.0", "x"], ["2.0", "y"]]⟩

/-- Witness instantiating `C1_drop_and_input_order` on a concrete file. -/
theorem C1_witness :
    (∀ r ∈ c1w_table.rows, (toNumericQ (cellStr r (timeIdx c1w_table))).isSome = true) ∧
    ∃ k, find_header_line c1w_lines = some k ∧
      c1w_table.rows.Sublist (dataRows c1w_lines k) :=
  C1_drop_and_input_order c1w_lines c1w_table (by decide)

/-- A file with a blank line before the marker line. -/
def c2_lines : List String := ["", "timestamp,a", "1,2"]

/-- C2: evaluation of the parser at a failing input.  `find_header_line`
returns the file-line index 1 of the first marker line, but pandas applies
`header=1` after skipping the blank line, so the data line "1,2" becomes
the header and parsing fails — the marker line is not used as the
field-name header.  On files without blank preamble lines the claimed
behaviour holds (second and third conjuncts), and a marker-free file fails
with the ParseError. -/
theorem C2_header_selection :
    find_header_line c2_lines = some 1 ∧
    starts_with_marker (c2_lines.getD 1 "") = true ∧
    read_jb4_csv c2_lines =
      .error (.schemaError ("Expected a \"timestamp\" column, found: " ++
        pyListRepr ["1", "2"])) ∧
    read_jb4_csv ["meta", "timestamp,a", "1,2"] =
      .ok ⟨["timestamp", "a"], [["1", "2"]]⟩ ∧
    read_jb4_csv ["meta", "nothing"] =
      .error (.parseError "Could not find a header line starting with \"timestamp\"") := by
  refine ⟨by decide, by decide, by decide, by decide, by decide⟩

/-- C7: the surviving rows of a parse are exactly the data rows whose time
cell coerces, kept by `List.filter` — so precisely the unparsable-time rows
are dropped and the survivors keep their relative order. -/
theorem C7_filter_characterisation (lines : List String) (tbl : Table)
    (h : read_jb4_csv lines = .ok tbl) :
    ∃ k, find_header_line lines = some k ∧
      tbl.rows = (dataRows lines k).filter
        (fun r => (toNumericQ (cellStr r (timeIdx tbl))).isSome) := by
  obtain ⟨k, hk, _, hr⟩ := read_ok_spec lines tbl h
  exact ⟨k, hk, hr⟩

/-- Input for the C7 witness: valid and unparsable time values interspersed. -/
def c7_lines : List String := ["timestamp,a", "1.0,x", "bad,y", "2.0,z"]

/-- Table parsed from `c7_lines` (the "bad" row is dropped). -/
def c7_table : Table := ⟨["timestamp", "a"], [["1.0", "x"], ["2.0", "z"]]⟩

/-- Witness instantiating `C7_filter_characterisation` on a concrete file. -/
theorem C7_witness :
    ∃ k, find_header_line c7_lines = some k ∧
      c7_table.rows = (dataRows c7_lines k).filter
        (fun r => (toNumericQ (cellStr r (timeIdx c7_table))).isSome) :=
  C7_filter_characterisation c7_lines c7_table (by decide)

/-- C10: row dropping is governed solely by the time cell — a data row
survives iff its time cell coerces, every surviving row is a verbatim input
row (no column is modified), and the keep-predicate depends only on the
time cell. -/
theorem C10_time_cell_governs_dropping (lines : List String) (tbl : Table)
    (h : read_jb4_csv lines = .ok tbl) :
    ∃ k, find_header_line lines = some k ∧
      (∀ r ∈ dataRows lines k,
        (r ∈ tbl.rows ↔ (toNumericQ (cellStr r (timeIdx tbl))).isSome = true)) ∧
      (∀ r ∈ tbl.rows, r ∈ dataRows lines k) ∧
      (∀ r s : List String, cellStr r (timeIdx tbl) = cellStr s (timeIdx tbl) →
        ((toNumericQ (cellStr r (timeIdx tbl))).isSome =
          (toNumericQ (cellStr s (timeIdx tbl))).isSome)) := by
  obtain ⟨k, hk, _, hr⟩ := read_ok_spec lines tbl h
  refine ⟨k, hk, ?_, ?_, ?_⟩
  · intro r hrm
    rw [hr, List.mem_filter]
    exact ⟨fun hp => hp.2, fun hp => ⟨hrm, hp⟩⟩
  · intro r hrm
    rw [hr] at hrm
    exact (List.mem_filter.1 hrm).1
  · intro r s hcell
    rw [hcell]

/-- Input for the C10 witness. -/
def c10_lines : List String := ["timestamp,v", "0.5,a", "oops,b", "7,c"]

/-- Table parsed from `c10_lines`. -/
def c10_table : Table := ⟨["timestamp", "v"], [["0.5", "a"], ["7", "c"]]⟩

/-- Witness instantiating `C10_time_cell_governs_dropping` concretely. -/
theorem C10_witness :
    ∃ k, find_header_line c10_lines = some k ∧
      (∀ r ∈ dataRows c10_lines k,
        (r ∈ c10_table.rows ↔
          (toNumericQ (cellStr r (timeIdx c10_table))).isSome = true)) ∧
      (∀ r ∈ c10_table.rows, r ∈ dataRows c10_lines k) ∧
      (∀ r s : List String,
        cellStr r (timeIdx c10_table) = cellStr s (timeIdx c10_table) →
        ((toNumericQ (cellStr r (timeIdx c10_table))).isSome =
          (toNumericQ (cellStr s (timeIdx c10_table))).isSome)) :=
  C10_time_cell_governs_dropping c10_lines c10_table (by decide)

/-- The insertion point never exceeds the array length. -/
theorem searchsorted_le_length (l : List ℚ) (x : ℚ) : searchsorted l x ≤ l.length := by
  induction l with
  | nil => simp [searchsorted]
  | cons v rest ih =>
    by_cases h : v < x
    · simpa [searchsorted, h] using ih
    · simp [searchsorted, h]

/-- Every element strictly before the insertion point is below the query. -/
theorem getD_lt_of_lt_searchsorted (l : List ℚ) (x : ℚ) :
    ∀ j < searchsorted l x, l.getD j 0 < x := by
  induction l with
  | nil => simp [searchsorted]
  | cons v rest ih =>
    intro j hj
    by_cases h : v < x
    · rw [searchsorted] at hj
      rw [if_pos h] at hj
      cases j with
      | zero => simpa using h
      | succ j => exact ih j (by omega)
    · rw [searchsorted] at hj
      rw [if_neg h] at hj
      omega

/-- The element at the insertion point (when inside the array) is at or
above the query. -/
theorem le_getD_searchsorted (l : List ℚ) (x : ℚ)
    (h : searchsorted l x < l.length) : x ≤ l.getD (searchsorted l x) 0 := by
  induction l with
  | nil => simp [searchsorted] at h
  | cons v rest ih =>
    by_cases hv : v < x
    · have hs : searchsorted (v :: rest) x = searchsorted rest x + 1 := by
        rw [searchsorted, if_pos hv]
      rw [hs] at h ⊢
      simpa using ih (by simpa using h)
    · have hs : searchsorted (v :: rest) x = 0 := by
        rw [searchsorted, if_neg hv]
      rw [hs]
      simpa using le_of_not_lt hv

/-- Index monotonicity of a `Chain'`-sorted list, via `getD`. -/
theorem sorted_getD_mono (l : List ℚ) (hs : List.Chain' (· ≤ ·) l) :
    ∀ i j, i ≤ j → j < l.length → l.getD i 0 ≤ l.getD j 0 := by
  intro i j hij hj
  rcases eq_or_lt_of_le hij with rfl | hlt
  · exact le_refl _
  · have hp := List.chain'_iff_pairwise.1 hs
    have hi : i < l.length := lt_trans hlt hj
    have := List.pairwise_iff_getElem.1 hp i j hi hj hlt
    rwa [List.getD_eq_getElem l 0 hi, List.getD_eq_getElem l 0 hj]

/-- `nearest_index` stays in bounds on any non-empty array. -/
theorem nearest_index_lt_length (x : ℚ) (l : List ℚ) (h : l ≠ []) :
    nearest_index x l < l.length := by
  have hlen : 0 < l.length := List.length_pos.2 h
  have hle := searchsorted_le_length l x
  rw [nearest_index]
  split_ifs with h0 h1 h2 <;> omega

/-- On a sorted non-empty array, the sample at `nearest_index` minimises the
distance to the query over all indices. -/
theorem nearest_index_min_dist (x : ℚ) (l : List ℚ)
    (hs : List.Chain' (· ≤ ·) l) (hne : l ≠ []) :
    ∀ j < l.length, |l.getD (nearest_index x l) 0 - x| ≤ |l.getD j 0 - x| := by
  intro j hj
  have hlen : 0 < l.length := List.length_pos.2 hne
  have hle := searchsorted_le_length l x
  rw [nearest_index]
  split_ifs with h0 h1 h2
  · -- insertion point 0: the query is at or below every element
    have hx : x ≤ l.getD 0 0 := by
      have := le_getD_searchsorted l x (by omega)
      rwa [h0] at this
    have hmono : l.getD 0 0 ≤ l.getD j 0 := sorted_getD_mono l hs 0 j (Nat.zero_le j) hj
    rw [abs_of_nonneg (by linarith), abs_of_nonneg (by linarith)]
    linarith
  · -- insertion point at the end: the query is above every element
    have hj' : l.getD j 0 < x := getD_lt_of_lt_searchsorted l x j (by omega)
    have hlast : l.getD (l.length - 1) 0 < x :=
      getD_lt_of_lt_searchsorted l x (l.length - 1) (by omega)
    have hmono : l.getD j 0 ≤ l.getD (l.length - 1) 0 :=
      sorted_getD_mono l hs j (l.length - 1) (by omega) (by omega)
    rw [abs_of_nonpos (by linarith), abs_of_nonpos (by linarith)]
    linarith
  · -- interior, right neighbour strictly closer
    have hlo : l.getD (searchsorted l x - 1) 0 < x :=
      getD_lt_of_lt_searchsorted l x _ (by omega)
    have hhi : x ≤ l.getD (searchsorted l x) 0 := le_getD_searchsorted l x (by omega)
    rcases lt_or_ge j (searchsorted l x) with hjlt | hjge
    · have hmono : l.getD j 0 ≤ l.getD (searchsorted l x - 1) 0 :=
        sorted_getD_mono l hs j _ (by omega) (by omega)
      rw [abs_of_nonneg (by linarith), abs_of_nonpos (by linarith)]
      linarith
    · have hmono : l.getD (searchsorted l x) 0 ≤ l.getD j 0 :=
        sorted_getD_mono l hs _ j hjge hj
      rw [abs_of_nonneg (by linarith), abs_of_nonneg (by linarith)]
      linarith
  · -- interior, left neighbour at least as close
    have hlo : l.getD (searchsorted l x - 1) 0 < x :=
      getD_lt_of_lt_searchsorted l x _ (by omega)
    have hhi : x ≤ l.getD (searchsorted l x) 0 := le_getD_searchsorted l x (by omega)
    rcases lt_or_ge j (searchsorted l x) with hjlt | hjge
    · have hmono : l.getD j 0 ≤ l.getD (searchsorted l x - 1) 0 :=
        sorted_getD_mono l hs j _ (by omega) (by omega)
      rw [abs_of_nonpos (by linarith), abs_of_nonpos (by linarith)]
      linarith
    · have hmono : l.getD (searchsorted l x) 0 ≤ l.getD j 0 :=
        sorted_getD_mono l hs _ j hjge hj
      rw [abs_of_nonpos (by linarith), abs_of_nonneg (by linarith)]
      linarith

/-- Queries at or below the first element return index 0. -/
theorem nearest_index_clamp_low (x : ℚ) (l : List ℚ) (hx : x ≤ l.getD 0 0) :
    nearest_index x l = 0 := by
  have h0 : searchsorted l x = 0 := by
    cases l with
    | nil => rfl
    | cons v rest =>
      have : ¬ v < x := not_lt.2 (by simpa using hx)
      rw [searchsorted, if_neg this]
  rw [nearest_index]
  simp [h0]

/-- Queries strictly above the last element return the last index. -/
theorem nearest_index_clamp_high (x : ℚ) (l : List ℚ)
    (hs : List.Chain' (· ≤ ·) l) (hne : l ≠ [])
    (hx : l.getD (l.length - 1) 0 < x) : nearest_index x l = l.length - 1 := by
  have hlen : 0 < l.length := List.length_pos.2 hne
  have hss : searchsorted l x = l.length := by
    by_contra hcon
    have hlt : searchsorted l x < l.length :=
      lt_of_le_of_ne (searchsorted_le_length l x) hcon
    have h1 : x ≤ l.getD (searchsorted l x) 0 := le_getD_searchsorted l x hlt
    have h2 : l.getD (searchsorted l x) 0 ≤ l.getD (l.length - 1) 0 :=
      sorted_getD_mono l hs _ _ (by omega) (by omega)
    linarith
  rw [nearest_index, hss]
  rw [if_neg (by omega), if_pos (le_refl _)]

/-- C3 (amended): on a sorted non-empty array `nearest_index` returns an
in-bounds index whose sample minimises the distance to the query; queries
at or below the first element return index 0 and queries strictly beyond
the last element return the last index (a query equal to a duplicated last
element may return an earlier index holding the same value); the three
specified examples hold. -/
theorem C3_nearest_index_spec :
    (∀ (x : ℚ) (l : List ℚ), List.Chain' (· ≤ ·) l → l ≠ [] →
      nearest_index x l < l.length ∧
      (∀ j < l.length, |l.getD (nearest_index x l) 0 - x| ≤ |l.getD j 0 - x|) ∧
      (x ≤ l.getD 0 0 → nearest_index x l = 0) ∧
      (l.getD (l.length - 1) 0 < x → nearest_index x l = l.length - 1)) ∧
    nearest_index (27/10) [(0 : ℚ), 3/2, 5/2, 7/2] = 2 ∧
    nearest_index (-1) [(0 : ℚ), 3/2, 5/2, 7/2] = 0 ∧
    nearest_index 10 [(0 : ℚ), 3/2, 5/2, 7/2] = 3 := by
  refine ⟨fun x l hs hne =>
    ⟨nearest_index_lt_length x l hne, nearest_index_min_dist x l hs hne,
     fun hx => nearest_index_clamp_low x l hx,
     fun hx => nearest_index_clamp_high x l hs hne hx⟩, ?_, ?_, ?_⟩ <;>
    norm_num [nearest_index, searchsorted]

/-- C3, counterexample to the claim as stated: on the ascending array
`[1, 3, 3]` the boundary query `3` (equal to the last element) returns
index 1, not the last index 2, so "queries at or beyond either boundary
clamp to the first/last index" fails at the upper boundary. -/
theorem C3_counterexample :
    List.Chain' (· ≤ ·) [(1 : ℚ), 3, 3] ∧
    [(1 : ℚ), 3, 3].getD ([(1 : ℚ), 3, 3].length - 1) 0 ≤ 3 ∧
    nearest_index 3 [(1 : ℚ), 3, 3] = 1 ∧
    (1 : Nat) ≠ [(1 : ℚ), 3, 3].length - 1 := by
  refine ⟨?_, ?_, ?_, ?_⟩ <;>
    norm_num [nearest_index, searchsorted, List.chain'_cons, List.chain'_singleton]

/-- The example array of the spec, sorted. -/
theorem c3_example_sorted : List.Chain' (· ≤ ·) [(0 : ℚ), 3/2, 5/2, 7/2] := by
  norm_num [List.chain'_cons, List.chain'_singleton]

/-- Witness instantiating `C3_nearest_index_spec` at a concrete query,
array and comparison index. -/
theorem C3_witness :
    nearest_index (27/10) [(0 : ℚ), 3/2, 5/2, 7/2] < [(0 : ℚ), 3/2, 5/2, 7/2].length ∧
    |[(0 : ℚ), 3/2, 5/2, 7/2].getD (nearest_index (27/10) [(0 : ℚ), 3/2, 5/2, 7/2]) 0 - 27/10| ≤
      |[(0 : ℚ), 3/2, 5/2, 7/2].getD 1 0 - 27/10| :=
  ⟨(C3_nearest_index_spec.1 (27/10) [0, 3/2, 5/2, 7/2] c3_example_sorted (by simp)).1,
   (C3_nearest_index_spec.1 (27/10) [0, 3/2, 5/2, 7/2] c3_example_sorted (by simp)).2.1 1
     (by norm_num)⟩

/-- C9: on any sorted non-empty array, `nearest_index` returns an index
strictly below the array length, so indexing the time array — and any
co-indexed value series of the same length — is in bounds. -/
theorem C9_nearest_index_in_bounds :
    ∀ (x : ℚ) (l : List ℚ), List.Chain' (· ≤ ·) l → l ≠ [] →
      nearest_index x l < l.length ∧
      ∀ y : List ℚ, y.length = l.length → nearest_index x l < y.length := by
  intro x l _ hne
  exact ⟨nearest_index_lt_length x l hne,
    fun y hy => hy ▸ nearest_index_lt_length x l hne⟩

/-- Witness instantiating `C9_nearest_index_in_bounds` concretely. -/
theorem C9_witness :
    nearest_index 99 [(1 : ℚ), 2] < [(1 : ℚ), 2].length ∧
    ∀ y : List ℚ, y.length = [(1 : ℚ), 2].length → nearest_index 99 [(1 : ℚ), 2] < y.length :=
  C9_nearest_index_in_bounds 99 [1, 2]
    (by norm_num [List.chain'_cons, List.chain'_singleton]) (by simp)

/-- `infixB` decides the contiguous-substring relation. -/
theorem infixB_iff (n : List Char) : ∀ l, infixB n l = true ↔ n <:+: l := by
  intro l
  induction l with
  | nil => simp [infixB, List.isEmpty_iff, List.infix_nil]
  | cons b bs ih =>
    simp [infixB, Bool.or_eq_true, List.isPrefixOf_iff_prefix, ih, List.infix_cons_iff]

/-- `containsSub` decides the substring relation on the character lists. -/
theorem containsSub_iff (n h : String) : containsSub n h = true ↔ chars n <:+: chars h :=
  infixB_iff (chars n) (chars h)

/-- String concatenation concatenates the character lists. -/
theorem chars_append (a b : String) : chars (a ++ b) = chars a ++ chars b :=
  String.data_append a b

/-- A substring of `m` is a substring of `pre ++ m`. -/
theorem containsSub_append_left (n pre m : String)
    (h : containsSub n m = true) : containsSub n (pre ++ m) = true := by
  rw [containsSub_iff] at h ⊢
  rw [chars_append]
  exact h.trans (List.suffix_append (chars pre) (chars m)).isInfix

/-- A substring of `m` is a substring of `m ++ post`. -/
theorem containsSub_append_right (n m post : String)
    (h : containsSub n m = true) : containsSub n (m ++ post) = true := by
  rw [containsSub_iff] at h ⊢
  rw [chars_append]
  exact h.trans (List.prefix_append (chars m) (chars post)).isInfix

/-- A member's quoted form occurs inside the rendered item list. -/
theorem pyQuote_infix_aux (a : String) :
    ∀ l : List String, a ∈ l → chars (pyQuote a) <:+: chars (pyListReprAux l) := by
  intro l
  induction l with
  | nil => intro h; exact absurd h (List.not_mem_nil a)
  | cons x rest ih =>
    intro h
    cases rest with
    | nil =>
      rcases List.mem_singleton.1 h with rfl
      exact List.infix_refl _
    | cons y t =>
      rcases List.mem_cons.1 h with rfl | hmem
      · have : chars (pyListReprAux (a :: y :: t)) =
            chars (pyQuote a) ++ chars (", " ++ pyListReprAux (y :: t)) := by
          rw [pyListReprAux, ← chars_append, String.append_assoc]
        rw [this]
        exact (List.prefix_append _ _).isInfix
      · have : chars (pyListReprAux (x :: y :: t)) =
            chars (pyQuote x ++ ", ") ++ chars (pyListReprAux (y :: t)) := by
          rw [pyListReprAux, ← chars_append, String.append_assoc]
        rw [this]
        exact (ih hmem).trans (List.suffix_append _ _).isInfix

/-- A member's quoted form is a substring of the Python list rendering. -/
theorem mem_pyListRepr (a : String) (l : List String) (h : a ∈ l) :
    containsSub (pyQuote a) (pyListRepr l) = true := by
  rw [pyListRepr]
  refine containsSub_append_right _ _ _ (containsSub_append_left _ _ _ ?_)
  rw [containsSub_iff]
  exact pyQuote_infix_aux a l h

/-- Membership is preserved by sorted insertion. -/
theorem mem_insertSorted (s a : String) :
    ∀ l : List String, a ∈ insertSorted s l ↔ a = s ∨ a ∈ l := by
  intro l
  induction l with
  | nil => simp [insertSorted]
  | cons x rest ih =>
    by_cases h : strLeb s x
    · simp [insertSorted, h]
    · simp [insertSorted, h, ih]
      tauto

/-- Membership is preserved by the string sort. -/
theorem mem_sortStrings (a : String) : ∀ l : List String, a ∈ sortStrings l ↔ a ∈ l := by
  intro l
  induction l with
  | nil => simp [sortStrings]
  | cons x rest ih => simp [sortStrings, mem_insertSorted, ih]

/-- Membership is preserved by duplicate removal. -/
theorem mem_dedupFirst (a : String) : ∀ l : List String, a ∈ dedupFirst l ↔ a ∈ l := by
  intro l
  induction l with
  | nil => simp [dedupFirst]
  | cons x rest ih =>
    simp only [dedupFirst, List.mem_cons, List.mem_filter, ih, Bool.not_eq_eq_eq_not,
      Bool.not_true, beq_eq_false_iff_ne, ne_eq]
    constructor
    · rintro (rfl | ⟨hm, _⟩)
      · exact Or.inl rfl
      · exact Or.inr hm
    · rintro (rfl | hm)
      · exact Or.inl rfl
      · by_cases hax : a = x
        · exact Or.inl hax
        · exact Or.inr ⟨hm, hax⟩

/-- Membership is preserved by `sorted(set(...))`. -/
theorem mem_sortedSet (a : String) (l : List String) (h : a ∈ l) : a ∈ sortedSet l := by
  rw [sortedSet, mem_sortStrings, mem_dedupFirst]
  exact h

/-- Every available column name, quoted, occurs in the missing-columns
message; so does every missing friendly name. -/
theorem missing_err_msg_enumerates (missing available : List String) :
    (∀ c ∈ available, containsSub (pyQuote c) (missing_err_msg missing available) = true) ∧
    (∀ a ∈ missing, containsSub (pyQuote a) (missing_err_msg missing available) = true) := by
  constructor
  · intro c hc
    rw [missing_err_msg]
    exact containsSub_append_left _ _ _ (mem_pyListRepr c _ (mem_sortedSet c available hc))
  · intro a ha
    rw [missing_err_msg]
    exact containsSub_append_right _ _ _ (containsSub_append_right _ _ _
      (containsSub_append_left _ _ _ (mem_pyListRepr a _ ha)))


/-- Resolution when no Boost alias matches. -/
theorem resolve_columns_none_boost (available : List String)
    (hb : boostAlias available = none) :
    resolve_columns available = .error (.schemaError boost_err_msg) := by
  simp only [resolve_columns, hb]

/-- Resolution when a Boost alias matches but no Speed alias does. -/
theorem resolve_columns_none_speed (available : List String) (bc : String)
    (hb : boostAlias available = some bc) (hsp : speedAlias available = none) :
    resolve_columns available = .error (.schemaError speed_err_msg) := by
  simp only [resolve_columns, hb, hsp]

/-- Resolution once both aliases are chosen: the final validation step. -/
theorem resolve_columns_eq_of_aliases (available : List String) (bc sc : String)
    (hb : boostAlias available = some bc) (hsp : speedAlias available = some sc) :
    resolve_columns available =
      if (missingOf available bc sc).isEmpty then .ok (withAliases bc sc)
      else .error (.schemaError (missing_err_msg (missingOf available bc sc) available)) := by
  simp only [resolve_columns, hb, hsp]

/-- When neither Boost alias is available, resolution fails immediately
with the Boost message (regardless of the rest of the columns). -/
theorem resolve_columns_boost_fail (available : List String)
    (h1 : available.contains "Boost" = false)
    (h2 : available.contains "ECU Boost" = false) :
    resolve_columns available = .error (.schemaError boost_err_msg) := by
  refine resolve_columns_none_boost available ?_
  unfold boostAlias
  rw [h1, h2]
  simp

/-- When a Boost alias resolves but neither Speed alias is available,
resolution fails with the Speed message. -/
theorem resolve_columns_speed_fail (available : List String)
    (hb : (boostAlias available).isSome = true)
    (h1 : available.contains "Speed" = false)
    (h2 : available.contains "GPS Speed" = false) :
    resolve_columns available = .error (.schemaError speed_err_msg) := by
  obtain ⟨bc, hbc⟩ := Option.isSome_iff_exists.1 hb
  refine resolve_columns_none_speed available bc hbc ?_
  unfold speedAlias
  rw [h1, h2]
  simp

/-- Shape of a successful resolution: the fixed mapping extended with the
chosen Boost and Speed aliases, with every mapped physical column present. -/
theorem resolve_columns_ok_shape (available : List String) (m : List (String × String))
    (h : resolve_columns available = .ok m) :
    ∃ bc sc, boostAlias available = some bc ∧ speedAlias available = some sc ∧
      m = withAliases bc sc ∧ ∀ p ∈ m, available.contains p.2 = true := by
  cases hb : boostAlias available with
  | none =>
    rw [resolve_columns_none_boost available hb] at h
    exact Except.noConfusion h
  | some bc =>
    cases hsp : speedAlias available with
    | none =>
      rw [resolve_columns_none_speed available bc hb hsp] at h
      exact Except.noConfusion h
    | some sc =>
      rw [resolve_columns_eq_of_aliases available bc sc hb hsp] at h
      split_ifs at h with hm
      · injection h with h'
        subst h'
        refine ⟨bc, sc, rfl, rfl, rfl, ?_⟩
        simp only [missingOf, List.isEmpty_iff, List.map_eq_nil_iff,
          List.filter_eq_nil_iff] at hm
        intro p hp
        have := hm p hp
        simpa using this

/-- The resolved mapping sends "Boost" to the chosen Boost alias. -/
theorem lookupMap_resolved_boost (bc sc : String) :
    lookupMap (withAliases bc sc) "Boost" = some bc := rfl

/-- The resolved mapping sends "Speed" to the chosen Speed alias. -/
theorem lookupMap_resolved_speed (bc sc : String) :
    lookupMap (withAliases bc sc) "Speed" = some sc := rfl

/-- C4 (amended): when resolution reaches the final missing-columns
validation (both alias groups resolvable) and fails, the SchemaError
message enumerates, quoted, every available column and every base-mapping
friendly name whose physical column is missing; when it fails because no
Boost alias matches, the message instead names only the two aliases tried. -/
theorem C4_schema_error_enumerates :
    (∀ (available : List String) (msg : String),
      (boostAlias available).isSome = true →
      (speedAlias available).isSome = true →
      resolve_columns available = .error (.schemaError msg) →
      (∀ c ∈ available, containsSub (pyQuote c) msg = true) ∧
      (∀ p ∈ baseMapping, available.contains p.2 = false →
        containsSub (pyQuote p.1) msg = true)) ∧
    (∀ available : List String, available.contains "Boost" = false →
      available.contains "ECU Boost" = false →
      resolve_columns available = .error (.schemaError boost_err_msg)) ∧
    containsSub "Boost" boost_err_msg = true ∧
    containsSub "ECU Boost" boost_err_msg = true := by
  refine ⟨?_, resolve_columns_boost_fail, by decide, by decide⟩
  intro available msg hb hsp h
  obtain ⟨bc, hbc⟩ := Option.isSome_iff_exists.1 hb
  obtain ⟨sc, hsc⟩ := Option.isSome_iff_exists.1 hsp
  rw [resolve_columns_eq_of_aliases available bc sc hbc hsc] at h
  split_ifs at h with hm
  injection h with h1
  injection h1 with h2
  subst h2
  constructor
  · exact (missing_err_msg_enumerates _ _).1
  · intro p hp hpm
    refine (missing_err_msg_enumerates _ _).2 _ ?_
    simp only [missingOf]
    refine List.mem_map_of_mem _ (List.mem_filter.2 ⟨?_, by simpa using hpm⟩)
    simp only [withAliases]
    exact List.mem_append_left _ hp

/-- C4, counterexample: a file offering all base columns and Speed but no
Boost alias fails on the Boost aliases, and that SchemaError message does
not mention the available column "timestamp" (neither quoted nor bare) —
the full available set is not enumerated. -/
theorem C4_counterexample :
    resolve_columns ["timestamp", "RPM", "Pedal", "Throttle", "AFR", "IAT", "Speed"] =
      .error (.schemaError boost_err_msg) ∧
    containsSub (pyQuote "timestamp") boost_err_msg = false ∧
    containsSub "timestamp" boost_err_msg = false := by
  refine ⟨by decide, by decide, by decide⟩

/-- A concrete available set for the C4 witness: RPM is missing while both
alias groups resolve. -/
def c4w_available : List String :=
  ["timestamp", "Boost", "Speed", "Pedal", "Throttle", "AFR", "IAT"]

/-- Witness instantiating `C4_schema_error_enumerates` on a concrete
missing-column failure: the message mentions the available column
"timestamp" and the missing friendly name "RPM". -/
theorem C4_witness :
    containsSub (pyQuote "timestamp")
      (missing_err_msg (missingOf c4w_available "Boost" "Speed") c4w_available) = true ∧
    containsSub (pyQuote "RPM")
      (missing_err_msg (missingOf c4w_available "Boost" "Speed") c4w_available) = true :=
  ⟨(C4_schema_error_enumerates.1 c4w_available
      (missing_err_msg (missingOf c4w_available "Boost" "Speed") c4w_available)
      (by decide) (by decide) (by decide)).1 "timestamp" (by decide),
   (C4_schema_error_enumerates.1 c4w_available
      (missing_err_msg (missingOf c4w_available "Boost" "Speed") c4w_available)
      (by decide) (by decide) (by decide)).2 ("RPM", "RPM") (by decide) (by decide)⟩

/-- C6 (amended): a successful resolution maps "Boost" to "Boost" when
present, else to "ECU Boost", and likewise for "Speed"/"GPS Speed"; when
neither Boost alias is present resolution fails with the message naming
"Boost"; when a Boost alias resolves but neither Speed alias is present it
fails with the message naming "Speed" (with both groups missing, the Boost
check runs first and only "Boost" is named). -/
theorem C6_alias_priority :
    (∀ (available : List String) (m : List (String × String)),
      resolve_columns available = .ok m →
      (available.contains "Boost" = true → lookupMap m "Boost" = some "Boost") ∧
      (available.contains "Boost" = false → available.contains "ECU Boost" = true →
        lookupMap m "Boost" = some "ECU Boost") ∧
      (available.contains "Speed" = true → lookupMap m "Speed" = some "Speed") ∧
      (available.contains "Speed" = false → available.contains "GPS Speed" = true →
        lookupMap m "Speed" = some "GPS Speed")) ∧
    (∀ available : List String, available.contains "Boost" = false →
      available.contains "ECU Boost" = false →
      resolve_columns available = .error (.schemaError boost_err_msg) ∧
      containsSub "Boost" boost_err_msg = true) ∧
    (∀ available : List String, (boostAlias available).isSome = true →
      available.contains "Speed" = false → available.contains "GPS Speed" = false →
      resolve_columns available = .error (.schemaError speed_err_msg) ∧
      containsSub "Speed" speed_err_msg = true) := by
  refine ⟨?_,
    fun available h1 h2 => ⟨resolve_columns_boost_fail available h1 h2, by decide⟩,
    fun available hb h1 h2 => ⟨resolve_columns_speed_fail available hb h1 h2, by decide⟩⟩
  intro available m h
  obtain ⟨bc, sc, hbc, hsc, hm, _⟩ := resolve_columns_ok_shape available m h
  subst hm
  refine ⟨?_, ?_, ?_, ?_⟩
  · intro hB
    have hx : boostAlias available = some "Boost" := by
      unfold boostAlias
      rw [hB]
      simp
    have hcb : some bc = some "Boost" := hbc.symm.trans hx
    injection hcb with hcb
    rw [lookupMap_resolved_boost, hcb]
  · intro hB hE
    have hx : boostAlias available = some "ECU Boost" := by
      unfold boostAlias
      rw [hB, hE]
      simp
    have hcb : some bc = some "ECU Boost" := hbc.symm.trans hx
    injection hcb with hcb
    rw [lookupMap_resolved_boost, hcb]
  · intro hS
    have hx : speedAlias available = some "Speed" := by
      unfold speedAlias
      rw [hS]
      simp
    have hcs : some sc = some "Speed" := hsc.symm.trans hx
    injection hcs with hcs
    rw [lookupMap_resolved_speed, hcs]
  · intro hS hG
    have hx : speedAlias available = some "GPS Speed" := by
      unfold speedAlias
      rw [hS, hG]
      simp
    have hcs : some sc = some "GPS Speed" := hsc.symm.trans hx
    injection hcs with hcs
    rw [lookupMap_resolved_speed, hcs]

/-- C6, counterexample to the claim as stated: a column set containing
neither "Speed" nor "GPS Speed" (and no Boost alias either) fails with the
Boost message, which does not name "Speed" — the Boost check precedes the
Speed check. -/
theorem C6_counterexample :
    (["timestamp"] : List String).contains "Speed" = false ∧
    (["timestamp"] : List String).contains "GPS Speed" = false ∧
    resolve_columns ["timestamp"] = .error (.schemaError boost_err_msg) ∧
    containsSub "Speed" boost_err_msg = false := by
  refine ⟨by decide, by decide, by decide, by decide⟩

/-- Available columns for the C6 witness: only the secondary aliases. -/
def c6w_available : List String :=
  ["timestamp", "RPM", "Pedal", "Throttle", "AFR", "IAT", "ECU Boost", "GPS Speed"]

/-- Witness instantiating `C6_alias_priority` on a concrete file that has
only the fallback aliases. -/
theorem C6_witness :
    lookupMap (withAliases "ECU Boost" "GPS Speed") "Boost" = some "ECU Boost" ∧
    lookupMap (withAliases "ECU Boost" "GPS Speed") "Speed" = some "GPS Speed" :=
  ⟨(C6_alias_priority.1 c6w_available (withAliases "ECU Boost" "GPS Speed")
      (by decide)).2.1 (by decide) (by decide),
   (C6_alias_priority.1 c6w_available (withAliases "ECU Boost" "GPS Speed")
      (by decide)).2.2.2 (by decide) (by decide)⟩

/-- The access sequence of the plotting loop, for a resolved mapping. -/
theorem main_accesses_withAliases (bc sc : String) :
    main_accesses (withAliases bc sc) =
      ["RPM", bc, "Boost2", "Target", "Pedal", "Throttle", "AFR", "IAT", sc] := rfl

/-- When the first two accessed columns exist but "Boost2" does not, the
first failing access is `df["Boost2"]`. -/
theorem firstMissingCol_boost2 (cols : List String) (bc sc : String)
    (hR : cols.contains "RPM" = true) (hbc : cols.contains bc = true)
    (hB2 : cols.contains "Boost2" = false) :
    firstMissingCol cols ["RPM", bc, "Boost2", "Target", "Pedal", "Throttle", "AFR", "IAT", sc] =
      some "Boost2" := by
  have hR2 : "RPM" ∈ cols := by simpa using hR
  have hbc2 : bc ∈ cols := by simpa using hbc
  have hB2n : "Boost2" ∉ cols := by simpa using hB2
  simp [firstMissingCol, List.find?, hR2, hbc2, hB2n]

/-- When "Boost2" exists but "Target" does not, the first failing access is
`df["Target"]`. -/
theorem firstMissingCol_target (cols : List String) (bc sc : String)
    (hR : cols.contains "RPM" = true) (hbc : cols.contains bc = true)
    (hB2 : cols.contains "Boost2" = true) (hT : cols.contains "Target" = false) :
    firstMissingCol cols ["RPM", bc, "Boost2", "Target", "Pedal", "Throttle", "AFR", "IAT", sc] =
      some "Target" := by
  have hR2 : "RPM" ∈ cols := by simpa using hR
  have hbc2 : bc ∈ cols := by simpa using hbc
  have hB2y : "Boost2" ∈ cols := by simpa using hB2
  have hTn : "Target" ∉ cols := by simpa using hT
  simp [firstMissingCol, List.find?, hR2, hbc2, hB2y, hTn]

/-- `main` fails with the pandas KeyError of the first missing accessed
column. -/
theorem main_after_read_keyerr (tbl : Table) (m : List (String × String))
    (hres : resolve_columns tbl.cols = .ok m)
    (hts : tbl.cols.contains "timestamp" = true)
    (hrows : tbl.rows ≠ []) (c : String)
    (hfind : firstMissingCol tbl.cols (main_accesses m) = some c) :
    main_after_read tbl = .error (.keyError c) := by
  have hts2 : "timestamp" ∈ tbl.cols := by simpa using hts
  simp [main_after_read, hres, hts2, List.isEmpty_eq_false.2 hrows, hfind]

/-- C5 (amended): "Throttle" is validated by `resolve_columns`, so its
absence is a SchemaError naming it; "Boost2" and "Target" are never
validated — they are accessed unconditionally during plotting, so a parsed
table missing one of them fails with a pandas KeyError on that column, a
different failure kind from the SchemaError of the other missing-column
cases. -/
theorem C5_aux_columns :
    (∀ (tbl : Table) (bc sc : String),
      resolve_columns tbl.cols = .ok (withAliases bc sc) →
      tbl.cols.contains "timestamp" = true →
      tbl.rows ≠ [] →
      tbl.cols.contains "Boost2" = false →
      main_after_read tbl = .error (.keyError "Boost2") ∧
      isSchemaError (main_after_read tbl) = false) ∧
    (∀ (tbl : Table) (bc sc : String),
      resolve_columns tbl.cols = .ok (withAliases bc sc) →
      tbl.cols.contains "timestamp" = true →
      tbl.rows ≠ [] →
      tbl.cols.contains "Boost2" = true →
      tbl.cols.contains "Target" = false →
      main_after_read tbl = .error (.keyError "Target") ∧
      isSchemaError (main_after_read tbl) = false) ∧
    (∀ available : List String,
      (boostAlias available).isSome = true →
      (speedAlias available).isSome = true →
      available.contains "Throttle" = false →
      ∃ msg, resolve_columns available = .error (.schemaError msg) ∧
        containsSub (pyQuote "Throttle") msg = true) := by
  refine ⟨?_, ?_, ?_⟩
  · intro tbl bc sc hres hts hrows hB2
    obtain ⟨bc', sc', _, _, _, hall⟩ := resolve_columns_ok_shape _ _ hres
    have hR : tbl.cols.contains "RPM" = true :=
      hall ("RPM", "RPM") (by simp [withAliases, baseMapping])
    have hbcc : tbl.cols.contains bc = true :=
      hall ("Boost", bc) (by simp [withAliases])
    have hfind := firstMissingCol_boost2 tbl.cols bc sc hR hbcc hB2
    rw [← main_accesses_withAliases] at hfind
    have h1 := main_after_read_keyerr tbl _ hres hts hrows "Boost2" hfind
    exact ⟨h1, by rw [h1]; rfl⟩
  · intro tbl bc sc hres hts hrows hB2 hT
    obtain ⟨bc', sc', _, _, _, hall⟩ := resolve_columns_ok_shape _ _ hres
    have hR : tbl.cols.contains "RPM" = true :=
      hall ("RPM", "RPM") (by simp [withAliases, baseMapping])
    have hbcc : tbl.cols.contains bc = true :=
      hall ("Boost", bc) (by simp [withAliases])
    have hfind := firstMissingCol_target tbl.cols bc sc hR hbcc hB2 hT
    rw [← main_accesses_withAliases] at hfind
    have h1 := main_after_read_keyerr tbl _ hres hts hrows "Target" hfind
    exact ⟨h1, by rw [h1]; rfl⟩
  · intro available hb hsp hth
    obtain ⟨bc, hbc⟩ := Option.isSome_iff_exists.1 hb
    obtain ⟨sc, hsc⟩ := Option.isSome_iff_exists.1 hsp
    have hpair : ("Throttle", "Throttle") ∈ withAliases bc sc := by
      simp [withAliases, baseMapping]
    have hmem : "Throttle" ∈ missingOf available bc sc := by
      simp only [missingOf]
      exact List.mem_map_of_mem _ (List.mem_filter.2 ⟨hpair, by simpa using hth⟩)
    have hne : (missingOf available bc sc).isEmpty = false :=
      List.isEmpty_eq_false.2 (List.ne_nil_of_mem hmem)
    rw [resolve_columns_eq_of_aliases available bc sc hbc hsc, if_neg (by simp [hne])]
    exact ⟨_, rfl, (missing_err_msg_enumerates _ _).2 _ hmem⟩

/-- A file whose header has every required column except "Boost2". -/
def c5_lines : List String :=
  ["junk", "timestamp,RPM,Pedal,Throttle,AFR,IAT,Boost,Speed,Target", "1,2,3,4,5,6,7,8,9"]

/-- The table parsed from `c5_lines`. -/
def c5_table : Table :=
  ⟨["timestamp", "RPM", "Pedal", "Throttle", "AFR", "IAT", "Boost", "Speed", "Target"],
   [["1", "2", "3", "4", "5", "6", "7", "8", "9"]]⟩

/-- C5, counterexample: a parsed table missing only "Boost2" makes the
program fail with a KeyError (inside the plotting loop), not with the
SchemaError failure kind of the other missing-column cases. -/
theorem C5_counterexample :
    read_jb4_csv c5_lines = .ok c5_table ∧
    c5_table.cols.contains "Boost2" = false ∧
    main_after_read c5_table = .error (.keyError "Boost2") ∧
    isSchemaError (main_after_read c5_table) = false := by
  refine ⟨by decide, by decide, by decide, by decide⟩

/-- A table for the C5 witness: "Boost2" present, "Target" missing. -/
def c5w_table : Table :=
  ⟨["timestamp", "RPM", "Pedal", "Throttle", "AFR", "IAT", "Boost", "Speed", "Boost2"],
   [["1", "2", "3", "4", "5", "6", "7", "8", "9"]]⟩

/-- Witness instantiating `C5_aux_columns` concretely: the Target access
fails with its KeyError, and a Throttle-free column set yields a
SchemaError naming "Throttle". -/
theorem C5_witness :
    (main_after_read c5w_table = .error (.keyError "Target") ∧
      isSchemaError (main_after_read c5w_table) = false) ∧
    ∃ msg, resolve_columns ["timestamp", "RPM", "Pedal", "AFR", "IAT", "Boost", "Speed"] =
        .error (.schemaError msg) ∧
      containsSub (pyQuote "Throttle") msg = true :=
  ⟨C5_aux_columns.2.1 c5w_table "Boost" "Speed" (by decide) (by decide) (by decide)
      (by decide) (by decide),
   C5_aux_columns.2.2 ["timestamp", "RPM", "Pedal", "AFR", "IAT", "Boost", "Speed"]
      (by decide) (by decide) (by decide)⟩

/-- Python `round` is the identity on integers. -/
theorem pyRound_intCast (n : ℤ) : pyRound (n : ℚ) = n := by
  unfold pyRound
  rw [Int.floor_intCast]
  norm_num

/-- The zero-padded cents part always has two digits. -/
theorem pad2_length : ∀ n : Nat, n < 100 → (pad2 n).length = 2 := by decide

/-- The `.2f` rendering always ends in a point followed by two digits. -/
theorem fmt2_two_decimals (v : ℚ) :
    ∃ s t, fmt2 v = s ++ ("." ++ t) ∧ t.length = 2 := by
  refine ⟨(if v < 0 then "-" else "") ++ natStr ((pyRound (v * 100)).natAbs / 100),
    pad2 ((pyRound (v * 100)).natAbs % 100), ?_,
    pad2_length _ (Nat.mod_lt _ (by norm_num))⟩
  unfold fmt2
  exact String.append_assoc _ _ _

/-- C8: the cursor readout renders `3000.0000000001` as "3000" (full label
"RPM: 3000") and `14.567` as "14.57"; every integer value renders via the
no-decimals integer path, and every value at least `1e-9` away from its
rounding renders via the fixed two-decimal path, whose output ends in a
point and exactly two digits. -/
theorem C8_cursor_format :
    cursor_value_text (30000000000001/10000000000) = "3000" ∧
    cursor_value_text (14567/1000) = "14.57" ∧
    cursor_label "RPM" (30000000000001/10000000000) = "RPM: 3000" ∧
    (∀ v : ℚ, |v - (pyRound v : ℚ)| < 1/1000000000 →
      cursor_value_text v = intStr (pyRound v)) ∧
    (∀ n : ℤ, cursor_value_text (n : ℚ) = intStr n) ∧
    (∀ v : ℚ, 1/1000000000 ≤ |v - (pyRound v : ℚ)| →
      cursor_value_text v = fmt2 v ∧
      ∃ s t, fmt2 v = s ++ ("." ++ t) ∧ t.length = 2) := by
  have hint : cursor_value_text (30000000000001/10000000000) = "3000" := by
    have h1 : pyRound ((30000000000001 : ℚ)/10000000000) = 3000 := by
      norm_num [pyRound, Int.floor_eq_iff]
    rw [cursor_value_text, h1, if_pos (by norm_num [abs_sub_lt_iff, abs_of_nonneg])]
    decide
  have hfrac : cursor_value_text (14567/1000) = "14.57" := by
    have h2 : pyRound ((14567 : ℚ)/1000) = 15 := by
      norm_num [pyRound, Int.floor_eq_iff]
    have h3 : pyRound ((14567 : ℚ)/1000 * 100) = 1457 := by
      norm_num [pyRound, Int.floor_eq_iff]
    rw [cursor_value_text, h2, if_neg (by norm_num [abs_sub_lt_iff, abs_of_nonneg]),
      fmt2, h3, if_neg (by norm_num)]
    decide
  refine ⟨hint, hfrac, ?_, ?_, ?_, ?_⟩
  · rw [cursor_label, hint]
    decide
  · intro v h
    rw [cursor_value_text, if_pos h]
  · intro n
    rw [cursor_value_text, pyRound_intCast, if_pos (by norm_num)]
  · intro v h
    refine ⟨?_, fmt2_two_decimals v⟩
    rw [cursor_value_text, if_neg (not_lt.2 h)]

/-- The value `14.567` is far from every integer (for the C8 witness). -/
theorem c8w_far : (1 : ℚ)/1000000000 ≤ |14567/1000 - (pyRound (14567/1000 : ℚ) : ℚ)| := by
  have h2 : pyRound ((14567 : ℚ)/1000) = 15 := by
    norm_num [pyRound, Int.floor_eq_iff]
  rw [h2, abs_sub_comm, abs_of_nonneg (by norm_num)]
  norm_num

/-- Witness instantiating `C8_cursor_format` at concrete values. -/
theorem C8_witness :
    cursor_value_text ((5 : ℤ) : ℚ) = intStr (pyRound ((5 : ℤ) : ℚ)) ∧
    cursor_value_text (14567/1000) = fmt2 (14567/1000) :=
  ⟨C8_cursor_format.2.2.2.1 ((5 : ℤ) : ℚ)
      (by norm_num [pyRound, Int.floor_eq_iff, abs_sub_lt_iff]),
   (C8_cursor_format.2.2.2.2.2 (14567/1000) c8w_far).1⟩
